import Mathlib

/-!
Verification of the HTTP-server framework (request parsing, pattern
matching, routing and the middleware pipeline) against its specification.
The Rust sources are embedded shallowly: strings become `String` viewed as
lists of characters, `HashMap` becomes an association list whose insert
replaces the existing binding, `Result<T, E>` becomes `Except E T`, and the
per-request part of the connection loop becomes a pure function from the
parsed request to the response.
-/

namespace HttpScratch

/-! ## Character-level utilities mirroring Rust `str` methods -/

/-- Rust's `char::is_whitespace`: the Unicode White_Space property. -/
def rustIsWhitespace (c : Char) : Bool :=
  let n := c.toNat
  n == 0x09 || n == 0x0A || n == 0x0B || n == 0x0C || n == 0x0D || n == 0x20 ||
  n == 0x85 || n == 0xA0 || n == 0x1680 || (0x2000 ≤ n && n ≤ 0x200A) ||
  n == 0x2028 || n == 0x2029 || n == 0x202F || n == 0x205F || n == 0x3000

/-- Rust `str::split(sep: char)`, auxiliary: first segment and the remaining
segments. `split` always yields at least one (possibly empty) segment. -/
def splitCharAux (sep : Char) : List Char → List Char × List (List Char)
  | [] => ([], [])
  | c :: cs =>
    let r := splitCharAux sep cs
    if c = sep then ([], r.1 :: r.2) else (c :: r.1, r.2)

/-- Rust `str::split(sep: char)` over the character list. -/
def splitChar (sep : Char) (l : List Char) : List (List Char) :=
  (splitCharAux sep l).1 :: (splitCharAux sep l).2

/-- Rust `str::split("\r\n")`, auxiliary form. -/
def splitCRLFAux : List Char → List Char × List (List Char)
  | a :: b :: rest =>
    if a = '\r' ∧ b = '\n' then
      let r := splitCRLFAux rest
      ([], r.1 :: r.2)
    else
      let r := splitCRLFAux (b :: rest)
      (a :: r.1, r.2)
  | [a] => ([a], [])
  | [] => ([], [])

/-- Rust `str::split("\r\n")`: non-overlapping occurrences, left to right. -/
def splitCRLF (l : List Char) : List (List Char) :=
  (splitCRLFAux l).1 :: (splitCRLFAux l).2

/-- Rust `str::split("\r\n\r\n")`, auxiliary form. -/
def splitCRLFCRLFAux : List Char → List Char × List (List Char)
  | a :: b :: c :: d :: rest =>
    if a = '\r' ∧ b = '\n' ∧ c = '\r' ∧ d = '\n' then
      let r := splitCRLFCRLFAux rest
      ([], r.1 :: r.2)
    else
      let r := splitCRLFCRLFAux (b :: c :: d :: rest)
      (a :: r.1, r.2)
  | [a, b, c] => ([a, b, c], [])
  | [a, b] => ([a, b], [])
  | [a] => ([a], [])
  | [] => ([], [])

/-- Rust `str::split("\r\n\r\n")`: non-overlapping occurrences, left to right. -/
def splitCRLFCRLF (l : List Char) : List (List Char) :=
  (splitCRLFCRLFAux l).1 :: (splitCRLFCRLFAux l).2

/-- Rust `str::split_whitespace`, auxiliary: `acc` holds the reversed current
token. Tokens are maximal runs of non-whitespace; no empty token is produced. -/
def splitWhitespaceAux : List Char → List Char → List (List Char)
  | [], acc => if acc.isEmpty then [] else [acc.reverse]
  | c :: cs, acc =>
    if rustIsWhitespace c then
      if acc.isEmpty then splitWhitespaceAux cs []
      else acc.reverse :: splitWhitespaceAux cs []
    else splitWhitespaceAux cs (c :: acc)

/-- Rust `str::split_whitespace` over the character list. -/
def splitWhitespace (l : List Char) : List (List Char) :=
  splitWhitespaceAux l []

/-- Rust `str::split_once(sep: char)`: split at the first occurrence. -/
def splitOnceChar (sep : Char) : List Char → Option (List Char × List Char)
  | [] => none
  | c :: cs =>
    if c = sep then some ([], cs)
    else
      match splitOnceChar sep cs with
      | some r => some (c :: r.1, r.2)
      | none => none

/-- Rust `str::trim`: strip leading and trailing whitespace. -/
def trimChars (l : List Char) : List Char :=
  ((l.dropWhile rustIsWhitespace).reverse.dropWhile rustIsWhitespace).reverse

/-- Rust `str::strip_prefix`: the remainder when `pre` is a prefix. -/
def stripPrefixList : List Char → List Char → Option (List Char)
  | [], l => some l
  | _ :: _, [] => none
  | p :: ps, c :: cs => if c = p then stripPrefixList ps cs else none

/-- Rust `str::strip_suffix`: the beginning when `suf` is a suffix. -/
def stripSuffixList (suf l : List Char) : Option (List Char) :=
  (stripPrefixList suf.reverse l.reverse).map List.reverse

/-! ## Association-list model of `HashMap<String, String>`
Only lookup and insert are used by the sources; insert replaces the existing
binding of the key, as `HashMap::insert` does. -/

/-- `HashMap::insert`: replace the binding of `k`, or append it. -/
def insertAL (k v : String) : List (String × String) → List (String × String)
  | [] => [(k, v)]
  | p :: rest => if p.1 = k then (k, v) :: rest else p :: insertAL k v rest

/-- `HashMap::get`: the value bound to `k`, if any. -/
def lookupAL (k : String) : List (String × String) → Option String
  | [] => none
  | p :: rest => if p.1 = k then some p.2 else lookupAL k rest

/-- How many bindings of `k` the map holds. -/
def countKey (k : String) (m : List (String × String)) : Nat :=
  (m.filter fun p => p.1 == k).length

/-- Insert a list of pairs in order (each insert replaces earlier bindings). -/
def insertPairs (m : List (String × String)) (l : List (String × String)) :
    List (String × String) :=
  l.foldl (fun acc p => insertAL p.1 p.2 acc) m

/-- The value of the last pair with key `k` in `l`, in input order. -/
def lastVal (k : String) (l : List (String × String)) : Option String :=
  (l.reverse.find? fun p => p.1 == k).map Prod.snd

/-! ## Message model: `src/responses` and `src/requests/request.rs` -/

/-- Modelled from the spec: the `HTTPResponse` type lives in `src/responses`,
which is not among the provided sources. Per the spec (section 3) a response
carries a status code and a body; the routing code only constructs responses
with `new(code, message)` / `not_found(message)` and reads `status.code()`,
so only those are modelled. -/
structure HTTPResponse where
  status : Nat
  body : String
deriving DecidableEq

/-- Modelled from the spec: `HTTPResponse::new(code, message)`. -/
def HTTPResponse.new (code : Nat) (message : String) : HTTPResponse :=
  { status := code, body := message }

/-- Modelled from the spec: `HTTPResponse::not_found(message)`, a 404. -/
def HTTPResponse.not_found (message : String) : HTTPResponse :=
  { status := 404, body := message }

/-- The parsed request (`struct HTTPRequest`). Hash maps become association
lists. -/
structure HTTPRequest where
  method : String
  route : String
  version : String
  headers : List (String × String)
  body : String
  route_params : List (String × String)
  query_params : List (String × String)
deriving DecidableEq

/-- `HTTPRequest::extract_query_params`: split the target at the first `?`,
then split the query string on `&` and each pair at the first `=`; pairs
without `=` are skipped. -/
def extract_query_params (full_route : String) :
    String × List (String × String) :=
  match splitOnceChar '?' full_route.data with
  | some pq =>
    let query_params := (splitChar '&' pq.2).foldl
      (fun m param =>
        match splitOnceChar '=' param with
        | some kv => insertAL ⟨kv.1⟩ ⟨kv.2⟩ m
        | none => m) []
    (⟨pq.1⟩, query_params)
  | none => (full_route, [])

/-- `HTTPRequest::extract_method_route_and_version`: head section, first line,
exactly three whitespace-separated tokens. (Rust indexes `parts[0]`, which
never panics because `split` yields at least one segment; `headD`/`getD`
model the always-in-bounds indexing.) -/
def extract_method_route_and_version (request : String) :
    Except String (String × String × String) :=
  let parts := splitCRLFCRLF request.data
  let first_line_and_headers := splitCRLF (parts.headD [])
  if first_line_and_headers.isEmpty then
    .error "Empty request"
  else
    let first_line := first_line_and_headers.headD []
    let first_line_parts := splitWhitespace first_line
    if first_line_parts.length ≠ 3 then
      .error "Invalid request line format"
    else
      .ok (⟨first_line_parts.headD []⟩,
           ⟨first_line_parts.getD 1 []⟩,
           ⟨first_line_parts.getD 2 []⟩)

/-- `HTTPRequest::extract_headers`: every line of the head after the first,
split at the first `:`, both sides trimmed; lines without `:` are skipped. -/
def extract_headers (request : String) : List (String × String) :=
  let parts := splitCRLFCRLF request.data
  let first_line_and_headers := splitCRLF (parts.headD [])
  let headers := first_line_and_headers.tail
  headers.foldl
    (fun m line =>
      match splitOnceChar ':' line with
      | some kv => insertAL ⟨trimChars kv.1⟩ ⟨trimChars kv.2⟩ m
      | none => m) []

/-- `HTTPRequest::new`: body is segment 1 of the `\r\n\r\n` split (empty when
absent), then request line, headers and query parameters. -/
def HTTPRequest.new (request : String) : Except String HTTPRequest :=
  let parts := splitCRLFCRLF request.data
  let body : String := ⟨parts.getD 1 []⟩
  match extract_method_route_and_version request with
  | .error e => .error e
  | .ok mrv =>
    let headers_map := extract_headers request
    let pq := extract_query_params mrv.2.1
    .ok { method := mrv.1, route := pq.1, version := mrv.2.2,
          headers := headers_map, body := body,
          route_params := [], query_params := pq.2 }

/-! Derived views of the raw input, used to state the parsing claims. -/

/-- The head section: everything before the first `\r\n\r\n`. -/
def headSection (raw : String) : List Char :=
  (splitCRLFCRLF raw.data).headD []

/-- The whitespace-separated tokens of the first line of the head. -/
def requestLineTokens (raw : String) : List (List Char) :=
  splitWhitespace ((splitCRLF (headSection raw)).headD [])

/-- The header lines: every line of the head after the first. -/
def headerLines (raw : String) : List (List Char) :=
  (splitCRLF (headSection raw)).tail

/-- The parsed header pairs in input order (trimmed key, trimmed value);
lines without `:` are skipped. -/
def headerBindings (raw : String) : List (String × String) :=
  (headerLines raw).filterMap fun line =>
    (splitOnceChar ':' line).map fun kv =>
      ((⟨trimChars kv.1⟩ : String), (⟨trimChars kv.2⟩ : String))

/-- The parsed query pairs in input order; pairs without `=` are skipped. -/
def queryBindings (full_route : String) : List (String × String) :=
  match splitOnceChar '?' full_route.data with
  | some pq =>
    (splitChar '&' pq.2).filterMap fun param =>
      (splitOnceChar '=' param).map fun kv =>
        ((⟨kv.1⟩ : String), (⟨kv.2⟩ : String))
  | none => []

/-! ## Routing: `src/routing/route.rs` -/

/-- `type Handler = fn(HTTPRequest) -> HTTPResponse`. -/
abbrev Handler := HTTPRequest → HTTPResponse

/-- `type Middleware = fn(HTTPRequest) -> Result<HTTPRequest, HTTPResponse>`. -/
abbrev Middleware := HTTPRequest → Except HTTPResponse HTTPRequest

/-- The middleware-chain fold every layer uses: starting from `Ok(request)`,
each middleware runs only while the state is still `Ok`. The route and router
loops return the error immediately and the connection-global loop carries it
to the end of the chain; both compute this value. -/
def runChain : List Middleware → Except HTTPResponse HTTPRequest →
    Except HTTPResponse HTTPRequest
  | [], st => st
  | _ :: _, .error res => .error res
  | mw :: rest, .ok req => runChain rest (mw req)

/-- `struct Route`. -/
structure Route where
  method : String
  path : String
  handler : Handler
  middleware : List Middleware

/-- `Route::handle_request`: fold the route-scoped middleware over
`Ok(request)`; on `Ok` call the handler, on `Err` return that response. -/
def Route.handle_request (route : Route) (request : HTTPRequest) :
    HTTPResponse :=
  match runChain route.middleware (.ok request) with
  | .ok req => route.handler req
  | .error res => res

/-- A template segment that the matcher treats as a parameter placeholder:
`starts_with('\x7b') && ends_with('\x7d')`. -/
def isPlaceholderSeg (seg : List Char) : Bool :=
  seg.head? == some '\x7b' && seg.getLast? == some '\x7d'

/-- `Route::matches_route_pattern`: split template and path on `/`; equal
segment counts, and per segment either a placeholder (skipped) or exact
equality. -/
def Route.matches_route_pattern (route : Route) (path : String) : Bool :=
  let pattern_parts := splitChar '/' route.path.data
  let path_parts := splitChar '/' path.data
  pattern_parts.length == path_parts.length &&
    (pattern_parts.zip path_parts).all fun q =>
      isPlaceholderSeg q.1 || q.1 == q.2

/-- The matcher as the spec's claim words it: a `\x7bname\x7d` template
segment matches any NON-EMPTY actual segment; any other template segment
must be equal exactly. Stated from the spec for comparison with
`Route.matches_route_pattern`. -/
def spec_matches (pattern path : String) : Bool :=
  let pattern_parts := splitChar '/' pattern.data
  let path_parts := splitChar '/' path.data
  pattern_parts.length == path_parts.length &&
    (pattern_parts.zip path_parts).all fun q =>
      if isPlaceholderSeg q.1 then !q.2.isEmpty else q.1 == q.2

/-- The matcher as the amended claim words it: a placeholder segment matches
any actual segment, the empty one included. Stated from the spec's words for
comparison with `Route.matches_route_pattern`. -/
def spec_matches_amended (pattern path : String) : Bool :=
  let pattern_parts := splitChar '/' pattern.data
  let path_parts := splitChar '/' path.data
  pattern_parts.length == path_parts.length &&
    (pattern_parts.zip path_parts).all fun q =>
      if isPlaceholderSeg q.1 then true else q.1 == q.2

/-- The parameter name of a template segment, per
`strip_prefix('\x7b').and_then(|s| s.strip_suffix('\x7d'))`. -/
def placeholderName (seg : List Char) : Option (List Char) :=
  (stripPrefixList ['\x7b'] seg).bind fun s => stripSuffixList ['\x7d'] s

/-- `struct Router`. The Rust field `prefix` is a reserved word here, so it
is named `prefixPath`. -/
structure Router where
  prefixPath : String
  routes : List Route
  middleware : List Middleware

/-- `Router::inject_route_params_from_path`: walk the zipped template/path
segments and insert a binding for every placeholder segment. -/
def inject_route_params_from_path (request : HTTPRequest)
    (pattern actual_path : String) : HTTPRequest :=
  let path_parts := splitChar '/' actual_path.data
  let pattern_parts := splitChar '/' pattern.data
  let params := (pattern_parts.zip path_parts).foldl
    (fun m q =>
      match placeholderName q.1 with
      | some name => insertAL ⟨name⟩ ⟨q.2⟩ m
      | none => m) request.route_params
  { request with route_params := params }

/-- The placeholder bindings of a matched (template, path) pair, in segment
order: for every `\x7bname\x7d` template segment, (name, actual segment). -/
def paramBindings (pattern actual_path : String) : List (String × String) :=
  ((splitChar '/' pattern.data).zip (splitChar '/' actual_path.data)).filterMap
    fun q => (placeholderName q.1).map fun name =>
      ((⟨name⟩ : String), (⟨q.2⟩ : String))

/-- The prefix-stripping step of `Router::handle_request`: the whole path when
the router's prefix is `/`, otherwise `strip_prefix` (`none` means "prefix
not matched"). -/
def routerRelative (pre full_path : String) : Option String :=
  if pre = "/" then some full_path
  else (stripPrefixList pre.data full_path.data).map fun l => (⟨l⟩ : String)

/-- The scan of `Router::handle_request`: the first route whose method equals
the request's and whose template matches the relative path. -/
def findFirstMatch (routes : List Route) (method relative_path : String) :
    Option Route :=
  routes.find? fun route =>
    method == route.method && Route.matches_route_pattern route relative_path

/-- `Router::handle_request`: strip the prefix (404 "Route prefix not
matched" on failure), take the first matching route (404 "No matching route
found" when none), inject the route parameters, run the router-scoped chain,
then hand the request to the route. The Rust loop processes the first
matching route inline; selecting it with `find?` and then processing it
computes the same response. -/
def Router.handle_request (router : Router) (request : HTTPRequest) :
    HTTPResponse :=
  let full_path := request.route
  match routerRelative router.prefixPath full_path with
  | none => HTTPResponse.not_found "Route prefix not matched"
  | some relative_path =>
    match findFirstMatch router.routes request.method relative_path with
    | none => HTTPResponse.not_found "No matching route found"
    | some route =>
      let enriched := inject_route_params_from_path request route.path
        relative_path
      match runChain router.middleware (.ok enriched) with
      | .error res => res
      | .ok req => Route.handle_request route req

/-! ## Server-level dispatch: `src/server/server.rs` -/

/-- The router loop of `HTTPServer::handle_connection`: the first router
whose response status is not 404, if any. -/
def tryRouters (routers : List Router) (request : HTTPRequest) :
    Option HTTPResponse :=
  match routers with
  | [] => none
  | router :: rest =>
    let res := Router.handle_request router request
    if res.status ≠ 404 then some res else tryRouters rest request

/-- The fan-out of `HTTPServer::handle_connection`: first non-404 router
result, else a generic 404. -/
def server_dispatch (routers : List Router) (request : HTTPRequest) :
    HTTPResponse :=
  (tryRouters routers request).getD
    (HTTPResponse.not_found "No router matched this path")

/-- A parsed `GET /x HTTP/1.1` request (the exact parse of
`"GET /x HTTP/1.1\r\n\r\n"`). -/
def sampleRequest : HTTPRequest :=
  { method := "GET", route := "/x", version := "HTTP/1.1", headers := [],
    body := "", route_params := [], query_params := [] }

/-- A parsed `GET /api/nope HTTP/1.1` request. -/
def apiMissRequest : HTTPRequest :=
  { method := "GET", route := "/api/nope", version := "HTTP/1.1",
    headers := [], body := "", route_params := [], query_params := [] }

/-- A handler answering 200. -/
def okHandler : Handler := fun _ => HTTPResponse.new 200 "ok"

/-- The terminal response of `denyMiddleware`. -/
def denyResponse : HTTPResponse := HTTPResponse.new 503 "Service under maintenance"

/-- A middleware that rejects every request with `denyResponse`. -/
def denyMiddleware : Middleware := fun _ => .error denyResponse

/-- `GET /x` with no route-scoped middleware. -/
def xRoute : Route :=
  { method := "GET", path := "/x", handler := okHandler, middleware := [] }

/-- `GET /users/\x7bid\x7d` with no route-scoped middleware. -/
def usersRoute : Route :=
  { method := "GET", path := "/users/\x7bid\x7d", handler := okHandler,
    middleware := [] }

/-- A router at prefix `/` holding `xRoute`. -/
def rootRouter : Router :=
  { prefixPath := "/", routes := [xRoute], middleware := [] }

/-- A router at prefix `/api` with no routes. -/
def apiOnlyRouter : Router :=
  { prefixPath := "/api", routes := [], middleware := [] }

/-- `lookup` after `insert`: the inserted binding wins, others are untouched. -/
theorem lookupAL_insertAL (k a b : String) (m : List (String × String)) :
    lookupAL k (insertAL a b m) = if a = k then some b else lookupAL k m := by
  induction m with
  | nil => simp [insertAL, lookupAL]
  | cons p rest ih =>
    simp only [insertAL]
    by_cases hpa : p.1 = a
    · rw [if_pos hpa]
      simp only [lookupAL]
      by_cases hak : a = k
      · simp [hak]
      · have hpk : ¬ p.1 = k := fun h => hak (hpa.symm.trans h)
        simp [hak, hpk]
    · rw [if_neg hpa]
      simp only [lookupAL, ih]
      by_cases hpk : p.1 = k
      · have hak : ¬ a = k := fun h => hpa (hpk.trans h.symm)
        simp [hpk, hak]
      · simp [hpk]

/-- `countKey` over a cons. -/
theorem countKey_cons (k : String) (p : String × String)
    (m : List (String × String)) :
    countKey k (p :: m) = (if p.1 = k then 1 else 0) + countKey k m := by
  by_cases h : p.1 = k <;> simp [countKey, List.filter_cons, h, Nat.add_comm]

/-- `countKey` after `insert`: an insert of `k` leaves at least one binding
of `k` and adds none beyond what was there. -/
theorem countKey_insertAL (k a b : String) (m : List (String × String)) :
    countKey k (insertAL a b m) =
      if a = k then max 1 (countKey k m) else countKey k m := by
  induction m with
  | nil =>
    by_cases hak : a = k
    · simp [insertAL, countKey, List.filter, hak]
    · have : (a == k) = false := beq_eq_false_iff_ne.mpr hak
      simp [insertAL, countKey, List.filter, hak, this]
  | cons p rest ih =>
    simp only [insertAL]
    by_cases hpa : p.1 = a
    · rw [if_pos hpa, countKey_cons, countKey_cons]
      by_cases hak : a = k
      · have hpk : p.1 = k := hpa.trans hak
        simp [hak, hpk]
      · have hpk : ¬ p.1 = k := fun h => hak (hpa.symm.trans h)
        simp [hak, hpk]
    · rw [if_neg hpa, countKey_cons, countKey_cons, ih]
      by_cases hak : a = k
      · subst hak
        simp [hpa]
      · simp [hak]

/-- `lastVal` over a cons: a later binding of `k` beats the head. -/
theorem lastVal_cons (k : String) (p : String × String)
    (l : List (String × String)) :
    lastVal k (p :: l) =
      (lastVal k l).or (if p.1 = k then some p.2 else none) := by
  simp only [lastVal, List.reverse_cons, List.find?_append]
  cases h : List.find? (fun q => q.1 == k) l.reverse with
  | none =>
    by_cases hpk : p.1 = k
    · simp [List.find?, hpk, Option.or]
    · have hb : (p.1 == k) = false := beq_eq_false_iff_ne.mpr hpk
      simp [List.find?, hpk, hb, Option.or]
  | some q =>
    simp [Option.or]

/-- Folding inserts over a pair list: the last binding of `k` in the list
wins; a key the list does not bind keeps its value from the initial map. -/
theorem lookupAL_insertPairs (k : String) (m l : List (String × String)) :
    lookupAL k (insertPairs m l) = (lastVal k l).or (lookupAL k m) := by
  induction l generalizing m with
  | nil => simp [insertPairs, lastVal, Option.or]
  | cons p rest ih =>
    rw [show insertPairs m (p :: rest) = insertPairs (insertAL p.1 p.2 m) rest
        from rfl,
      ih, lookupAL_insertAL, lastVal_cons]
    cases h : lastVal k rest with
    | none =>
      by_cases hpk : p.1 = k <;> simp [hpk, Option.or]
    | some v => simp [Option.or]

/-- Folding inserts over a pair list, key multiplicity: a key the list binds
ends with exactly `max 1` of its initial count; any other key is untouched. -/
theorem countKey_insertPairs (k : String) (m l : List (String × String)) :
    countKey k (insertPairs m l) =
      if (lastVal k l).isSome then max 1 (countKey k m) else countKey k m := by
  induction l generalizing m with
  | nil => simp [insertPairs, lastVal]
  | cons p rest ih =>
    rw [show insertPairs m (p :: rest) = insertPairs (insertAL p.1 p.2 m) rest
        from rfl,
      ih, countKey_insertAL, lastVal_cons]
    cases h : lastVal k rest with
    | none =>
      by_cases hpk : p.1 = k <;> simp [hpk, Option.or]
    | some v =>
      by_cases hpk : p.1 = k <;> simp [hpk, Option.or]

/-- Folding the insert-if-parsed loop over a line list is inserting the
parsed pairs in order: the generic bridge for `extract_headers`,
`extract_query_params` and `inject_route_params_from_path`. -/
theorem foldl_optInsert_eq_insertPairs {α : Type}
    (f : α → Option (String × String)) (l : List α)
    (m : List (String × String)) :
    l.foldl (fun acc x =>
        match f x with
        | some kv => insertAL kv.1 kv.2 acc
        | none => acc) m
      = insertPairs m (l.filterMap f) := by
  induction l generalizing m with
  | nil => simp [insertPairs]
  | cons x rest ih =>
    cases h : f x with
    | none => simp [List.foldl, h, ih, List.filterMap_cons, insertPairs]
    | some kv => simp [List.foldl, h, ih, List.filterMap_cons, insertPairs]

/-- The header loop builds exactly the insert-fold of the parsed header
pairs. -/
theorem extract_headers_eq (raw : String) :
    extract_headers raw = insertPairs [] (headerBindings raw) := by
  have hf : (fun (m : List (String × String)) line =>
      match splitOnceChar ':' line with
      | some kv => insertAL ⟨trimChars kv.1⟩ ⟨trimChars kv.2⟩ m
      | none => m)
    = fun (m : List (String × String)) line =>
      match (splitOnceChar ':' line).map (fun kv =>
          ((⟨trimChars kv.1⟩ : String), (⟨trimChars kv.2⟩ : String))) with
      | some kv => insertAL kv.1 kv.2 m
      | none => m := by
    funext m line
    cases splitOnceChar ':' line <;> rfl
  simp only [extract_headers, headerBindings, headerLines, headSection]
  rw [hf, foldl_optInsert_eq_insertPairs]

/-- The query loop builds exactly the insert-fold of the parsed query
pairs. -/
theorem extract_query_params_eq (fr : String) :
    (extract_query_params fr).2 = insertPairs [] (queryBindings fr) := by
  have hf : (fun (m : List (String × String)) param =>
      match splitOnceChar '=' param with
      | some kv => insertAL ⟨kv.1⟩ ⟨kv.2⟩ m
      | none => m)
    = fun (m : List (String × String)) param =>
      match (splitOnceChar '=' param).map (fun kv =>
          ((⟨kv.1⟩ : String), (⟨kv.2⟩ : String))) with
      | some kv => insertAL kv.1 kv.2 m
      | none => m := by
    funext m param
    cases splitOnceChar '=' param <;> rfl
  simp only [extract_query_params, queryBindings]
  cases h : splitOnceChar '?' fr.data with
  | none => simp [insertPairs]
  | some pq =>
    simp only []
    rw [hf, foldl_optInsert_eq_insertPairs]

/-- The parameter-injection loop builds exactly the insert-fold of the
placeholder bindings, on top of the request's existing parameters. -/
theorem inject_params_eq (req : HTTPRequest) (pattern path : String) :
    (inject_route_params_from_path req pattern path).route_params
      = insertPairs req.route_params (paramBindings pattern path) := by
  have hf : (fun (m : List (String × String))
        (q : List Char × List Char) =>
      match placeholderName q.1 with
      | some name => insertAL ⟨name⟩ ⟨q.2⟩ m
      | none => m)
    = fun (m : List (String × String)) q =>
      match (placeholderName q.1).map (fun name =>
          ((⟨name⟩ : String), (⟨q.2⟩ : String))) with
      | some kv => insertAL kv.1 kv.2 m
      | none => m := by
    funext m q
    cases placeholderName q.1 <;> rfl
  simp only [inject_route_params_from_path, paramBindings]
  rw [hf, foldl_optInsert_eq_insertPairs]

/-- `split_whitespace` produces no empty token. -/
theorem splitWhitespaceAux_ne_nil (cs : List Char) :
    ∀ acc t, t ∈ splitWhitespaceAux cs acc → t ≠ [] := by
  induction cs with
  | nil =>
    intro acc t ht
    by_cases h : acc.isEmpty
    · simp [splitWhitespaceAux, h] at ht
    · simp only [splitWhitespaceAux, if_neg h, List.mem_singleton] at ht
      subst ht
      simpa [List.isEmpty_iff] using h
  | cons c cs ih =>
    intro acc t ht
    by_cases hw : rustIsWhitespace c
    · by_cases h : acc.isEmpty
      · rw [splitWhitespaceAux, if_pos hw, if_pos h] at ht
        exact ih [] t ht
      · rw [splitWhitespaceAux, if_pos hw, if_neg h] at ht
        rcases List.mem_cons.mp ht with h1 | h2
        · subst h1
          simpa [List.isEmpty_iff] using h
        · exact ih [] t h2
    · rw [splitWhitespaceAux, if_neg hw] at ht
      exact ih (c :: acc) t ht

/-- Every token of `split_whitespace` is non-empty. -/
theorem splitWhitespace_ne_nil (l : List Char) :
    ∀ t ∈ splitWhitespace l, t ≠ [] :=
  fun t ht => splitWhitespaceAux_ne_nil l [] t ht

/-- A `split_once` whose first component is empty starts at the separator. -/
theorem splitOnceChar_nil_first (c : Char) (l b : List Char)
    (h : splitOnceChar c l = some ([], b)) : l.head? = some c := by
  cases l with
  | nil => simp [splitOnceChar] at h
  | cons x xs =>
    by_cases hx : x = c
    · simp [hx]
    · rw [splitOnceChar, if_neg hx] at h
      cases hr : splitOnceChar c xs with
      | none => rw [hr] at h; simp at h
      | some r => rw [hr] at h; simp at h

/-- The request-line extraction, written by the value of the token count. -/
theorem extract_mrv_eq (raw : String) :
    extract_method_route_and_version raw =
      if (requestLineTokens raw).length = 3
      then .ok (⟨(requestLineTokens raw).headD []⟩,
                ⟨(requestLineTokens raw).getD 1 []⟩,
                ⟨(requestLineTokens raw).getD 2 []⟩)
      else .error "Invalid request line format" := by
  simp only [extract_method_route_and_version, requestLineTokens, headSection,
    splitCRLF, List.isEmpty_cons, List.headD_cons, Bool.false_eq_true,
    if_false, ite_not]

/-- When every router answers 404, the router loop selects nothing. -/
theorem tryRouters_all_404 : ∀ (routers : List Router) (req : HTTPRequest),
    (∀ r ∈ routers, (Router.handle_request r req).status = 404) →
    tryRouters routers req = none := by
  intro routers req
  induction routers with
  | nil => intro _; rfl
  | cons r rest ih =>
    intro hall
    have h404 := hall r (by simp)
    have ihh := ih fun x hx => hall x (by simp [hx])
    simp [tryRouters, h404, ihh]

/-- The router loop skips a block of 404-answering routers and stops at the
first router whose status is not 404. -/
theorem tryRouters_skip_404 : ∀ (preR : List Router) (rt : Router)
    (restR : List Router) (req : HTTPRequest),
    (∀ r ∈ preR, (Router.handle_request r req).status = 404) →
    (Router.handle_request rt req).status ≠ 404 →
    tryRouters (preR ++ rt :: restR) req =
      some (Router.handle_request rt req) := by
  intro preR rt restR req
  induction preR with
  | nil =>
    intro _ hrt
    simp [tryRouters, hrt]
  | cons r rest ih =>
    intro hall hrt
    have h404 := hall r (by simp)
    have ihh := ih (fun x hx => hall x (by simp [hx])) hrt
    simp [tryRouters, h404, ihh]

/-! ## The claims -/

/-- C2: server-level dispatch answers the first router result whose status
is not 404; when every router answers 404 (the empty list included) it
answers the generic 404 "No router matched this path". -/
theorem fanout_first_non404
    (routers preR restR : List Router) (rt : Router) (req : HTTPRequest)
    (hall : ∀ r ∈ routers, (Router.handle_request r req).status = 404)
    (hpreR : ∀ r ∈ preR, (Router.handle_request r req).status = 404)
    (hrt : (Router.handle_request rt req).status ≠ 404) :
    server_dispatch routers req =
      HTTPResponse.not_found "No router matched this path"
    ∧ server_dispatch (preR ++ rt :: restR) req =
      Router.handle_request rt req := by
  constructor
  · rw [server_dispatch, tryRouters_all_404 routers req hall]
    rfl
  · rw [server_dispatch, tryRouters_skip_404 preR rt restR req hpreR hrt]
    rfl

/-- C2 at a concrete input: a router whose prefix misses answers 404, so the
next router's 200 is the final response; alone, the missing router makes the
dispatch answer the generic 404. -/
theorem fanout_first_non404_witness :
    server_dispatch [apiOnlyRouter] sampleRequest =
      HTTPResponse.not_found "No router matched this path"
    ∧ server_dispatch ([apiOnlyRouter] ++ rootRouter :: []) sampleRequest =
      Router.handle_request rootRouter sampleRequest :=
  fanout_first_non404 [apiOnlyRouter] [apiOnlyRouter] [] rootRouter
    sampleRequest
    (fun r hr => by rw [List.mem_singleton] at hr; subst hr; rfl)
    (fun r hr => by rw [List.mem_singleton] at hr; subst hr; rfl)
    (by decide)

/-- C10: when the router's prefix matches but no route matches by method and
template, the router answers 404 "No matching route found", and the
router-scoped chain is never consulted: the result is the same for every
chain. -/
theorem no_match_404_skips_router_chain
    (pfx rel : String) (routes : List Route) (mws mws2 : List Middleware)
    (req : HTTPRequest)
    (hrel : routerRelative pfx req.route = some rel)
    (hnone : findFirstMatch routes req.method rel = none) :
    Router.handle_request ⟨pfx, routes, mws⟩ req =
      HTTPResponse.not_found "No matching route found"
    ∧ Router.handle_request ⟨pfx, routes, mws⟩ req =
      Router.handle_request ⟨pfx, routes, mws2⟩ req := by
  have h : ∀ ms : List Middleware,
      Router.handle_request ⟨pfx, routes, ms⟩ req =
        HTTPResponse.not_found "No matching route found" := by
    intro ms
    simp only [Router.handle_request, hrel, hnone]
  exact ⟨h mws, (h mws).trans (h mws2).symm⟩

/-- C10 at a concrete input: `/api` prefix matches, the only route does not,
and a denying router-scoped middleware never runs. -/
theorem no_match_404_skips_router_chain_witness :
    Router.handle_request ⟨"/api", [usersRoute], [denyMiddleware]⟩
        apiMissRequest =
      HTTPResponse.not_found "No matching route found"
    ∧ Router.handle_request ⟨"/api", [usersRoute], [denyMiddleware]⟩
        apiMissRequest =
      Router.handle_request ⟨"/api", [usersRoute], []⟩ apiMissRequest :=
  no_match_404_skips_router_chain "/api" "/nope" [usersRoute]
    [denyMiddleware] [] apiMissRequest rfl rfl

/-- C3, counterexample to the claim as stated: the template `\x7bid\x7d`
matches the empty path (whose single segment is empty), although the claimed
characterisation demands a non-empty actual segment for a placeholder. -/
theorem matches_empty_segment_cex :
    Route.matches_route_pattern
        { method := "GET", path := "\x7bid\x7d",
          handler := fun _ => HTTPResponse.new 200 "", middleware := [] } ""
      = true
    ∧ spec_matches "\x7bid\x7d" "" = false :=
  ⟨rfl, rfl⟩

/-- C3 as amended: `Matches` is exactly the spec's segment-wise
characterisation with the non-emptiness requirement dropped — a placeholder
segment matches any actual segment, the empty one included; every other
segment must be equal exactly. -/
theorem matches_pattern_amended_spec (r : Route) (path : String) :
    Route.matches_route_pattern r path = spec_matches_amended r.path path := by
  have hf : ∀ q : List Char × List Char,
      (isPlaceholderSeg q.1 || q.1 == q.2) =
        (if isPlaceholderSeg q.1 then true else q.1 == q.2) := by
    intro q
    cases h : isPlaceholderSeg q.1 <;> simp [h]
  simp only [Route.matches_route_pattern, spec_matches_amended, hf]

/-- C5, counterexample to the claim as stated: the empty input has an empty
head, yet parsing fails with the invalid-request-line error, not with
`EmptyRequest`. -/
theorem parse_empty_head_cex :
    headSection "" = []
    ∧ HTTPRequest.new "" = .error "Invalid request line format"
    ∧ "Invalid request line format" ≠ "Empty request" :=
  ⟨rfl, rfl, by decide⟩

/-- C5 as amended: parsing fails exactly when the first line of the head
does not split into three whitespace tokens, always with the
invalid-request-line error; the `EmptyRequest` branch is unreachable and no
other failure exists. -/
theorem parse_error_iff_invalid_line (raw e : String) :
    HTTPRequest.new raw = .error e ↔
      ((requestLineTokens raw).length ≠ 3
        ∧ e = "Invalid request line format") := by
  simp only [HTTPRequest.new]
  rw [extract_mrv_eq]
  by_cases h3 : (requestLineTokens raw).length = 3
  · rw [if_pos h3]
    simp [h3]
  · rw [if_neg h3]
    simp [h3, eq_comm]

/-- C7: on the failing input the parsed body is the segment between the
first and second blank-line separators, not the whole remainder after the
first separator as the claim (and HTTP) requires. -/
theorem body_truncated_at_second_separator :
    (HTTPRequest.new "GET / HTTP/1.1\r\n\r\nAB\r\n\r\nCD").map HTTPRequest.body
      = .ok "AB"
    ∧ ("AB" : String) ≠ "AB\r\n\r\nCD" :=
  ⟨rfl, by decide⟩

/-- C8, counterexample to the claim as stated: a request line whose version
token is `SPDY/3` is accepted, and the token is stored as received. -/
theorem non_http11_accepted_cex :
    (HTTPRequest.new "GET / SPDY/3\r\n\r\n").map HTTPRequest.version
      = .ok "SPDY/3"
    ∧ ("SPDY/3" : String) ≠ "HTTP/1.1" :=
  ⟨rfl, by decide⟩

/-- C8 as amended: parsing validates no protocol version — acceptance
depends only on the token count of the request line, and the version field
is the third token as received. -/
theorem parse_ignores_version_token (raw : String) :
    (HTTPRequest.new raw).isOk = ((requestLineTokens raw).length == 3)
    ∧ (HTTPRequest.new raw).map HTTPRequest.version =
        (if (requestLineTokens raw).length = 3
         then .ok ⟨(requestLineTokens raw).getD 2 []⟩
         else .error "Invalid request line format") := by
  by_cases h3 : (requestLineTokens raw).length = 3
  · constructor
    · simp only [HTTPRequest.new]
      rw [extract_mrv_eq, if_pos h3]
      simp [h3, Except.isOk, Except.toBool]
    · simp only [HTTPRequest.new]
      rw [extract_mrv_eq, if_pos h3, if_pos h3]
      simp [Except.map]
  · constructor
    · simp only [HTTPRequest.new]
      rw [extract_mrv_eq, if_neg h3]
      simp [h3, Except.isOk, Except.toBool]
    · simp only [HTTPRequest.new]
      rw [extract_mrv_eq, if_neg h3, if_neg h3]
      simp [Except.map]

/-- C6, counterexample to the claim as stated: a request whose target starts
with `?` parses successfully with an empty path. -/
theorem parse_empty_path_cex :
    (HTTPRequest.new "GET ?a=1 HTTP/1.1").map HTTPRequest.route = .ok "" :=
  rfl

/-- C6 as amended: on a successful parse the method and version are always
non-empty, and the path (the part of the target before the first `?`) is
non-empty except when the target begins with `?`. -/
theorem parse_success_nonempty_fields
    (raw : String) (r : HTTPRequest)
    (hok : HTTPRequest.new raw = .ok r) :
    r.method ≠ "" ∧ r.version ≠ ""
    ∧ (r.route = "" →
        ((requestLineTokens raw).getD 1 []).head? = some '?') := by
  simp only [HTTPRequest.new] at hok
  rw [extract_mrv_eq] at hok
  by_cases h3 : (requestLineTokens raw).length = 3
  · rw [if_pos h3] at hok
    simp only [] at hok
    obtain ⟨t0, t1, t2, htok⟩ := List.length_eq_three.mp h3
    have hmem : ∀ t ∈ requestLineTokens raw, t ≠ [] :=
      splitWhitespace_ne_nil ((splitCRLF (headSection raw)).headD [])
    have h0 : t0 ≠ [] := hmem t0 (by rw [htok]; simp)
    have h1 : t1 ≠ [] := hmem t1 (by rw [htok]; simp)
    have h2 : t2 ≠ [] := hmem t2 (by rw [htok]; simp)
    rw [htok] at hok
    simp only [List.headD_cons, List.getD_cons_succ, List.getD_cons_zero]
      at hok
    obtain rfl : _ = r := Except.ok.inj hok
    refine ⟨?_, ?_, ?_⟩
    · intro h
      exact h0 (by simpa using congrArg String.data h)
    · intro h
      exact h2 (by simpa using congrArg String.data h)
    · intro h
      rw [htok]
      simp only [List.getD_cons_succ, List.getD_cons_zero]
      simp only [extract_query_params] at h
      cases hq : splitOnceChar '?' (String.mk t1).data with
      | none =>
        rw [hq] at h
        simp only [] at h
        exact absurd (by simpa using congrArg String.data h) h1
      | some pq =>
        rw [hq] at h
        simp only [] at h
        have hnil : pq.1 = [] := by simpa using congrArg String.data h
        exact splitOnceChar_nil_first '?' t1 pq.2
          (by rw [hq]; rw [show pq = (pq.1, pq.2) from rfl, hnil])
  · rw [if_neg h3] at hok
    exact absurd hok (by simp)

/-- C6 at a concrete input: a plain `GET /x HTTP/1.1` parse has non-empty
method, version and path. -/
theorem parse_success_nonempty_fields_witness :
    sampleRequest.method ≠ "" ∧ sampleRequest.version ≠ ""
    ∧ (sampleRequest.route = "" →
        ((requestLineTokens "GET /x HTTP/1.1\r\n\r\n").getD 1 []).head? =
          some '?') :=
  parse_success_nonempty_fields "GET /x HTTP/1.1\r\n\r\n" sampleRequest rfl

/-- Lookup in a map built by inserting a pair list into the empty map: the
last binding in input order. -/
theorem lookupAL_insertPairs_nil (k : String) (l : List (String × String)) :
    lookupAL k (insertPairs [] l) = lastVal k l := by
  rw [lookupAL_insertPairs]
  cases lastVal k l <;> simp [lookupAL, Option.or]

/-- A map built by inserting a pair list into the empty map holds exactly
one binding for a bound key, none for an unbound one. -/
theorem countKey_insertPairs_nil (k : String) (l : List (String × String)) :
    countKey k (insertPairs [] l) =
      if (lastVal k l).isSome then 1 else 0 := by
  rw [countKey_insertPairs]
  cases lastVal k l <;> simp [countKey, List.filter]

/-- C9: a repeated header key (and a repeated query key) keeps exactly one
entry, holding the value of the last occurrence in input order. -/
theorem duplicate_keys_last_wins (raw fr k : String) :
    lookupAL k (extract_headers raw) = lastVal k (headerBindings raw)
    ∧ countKey k (extract_headers raw) =
        (if (lastVal k (headerBindings raw)).isSome then 1 else 0)
    ∧ lookupAL k (extract_query_params fr).2 = lastVal k (queryBindings fr)
    ∧ countKey k (extract_query_params fr).2 =
        (if (lastVal k (queryBindings fr)).isSome then 1 else 0) :=
  ⟨by rw [extract_headers_eq, lookupAL_insertPairs_nil],
   by rw [extract_headers_eq, countKey_insertPairs_nil],
   by rw [extract_query_params_eq, lookupAL_insertPairs_nil],
   by rw [extract_query_params_eq, countKey_insertPairs_nil]⟩

/-- `lastVal` finds something exactly when the list binds the key. -/
theorem lastVal_isSome_iff (k : String) (l : List (String × String)) :
    (lastVal k l).isSome = true ↔ ∃ p ∈ l, p.1 = k := by
  simp only [lastVal]
  cases h : List.find? (fun p => p.1 == k) l.reverse with
  | none =>
    rw [List.find?_eq_none] at h
    simp only [Option.map_none', Option.isSome_none, false_iff,
      Bool.false_eq_true]
    rintro ⟨p, hp, hpk⟩
    exact h p (List.mem_reverse.mpr hp) (by simp [hpk])
  | some p =>
    simp only [Option.map_some', Option.isSome_some, true_iff]
    have hpk : p.1 = k := by
      have hb := List.find?_some h
      simpa using hb
    exact ⟨p, List.mem_reverse.mp (List.mem_of_find?_eq_some h), hpk⟩

/-- A `lastVal` hit comes from a pair of the list with that key and value. -/
theorem lastVal_eq_some_mem (k v : String) (l : List (String × String))
    (h : lastVal k l = some v) : ∃ p ∈ l, p.1 = k ∧ p.2 = v := by
  simp only [lastVal, Option.map_eq_some'] at h
  obtain ⟨p, hfind, hv⟩ := h
  have hpk : p.1 = k := by
    have hb := List.find?_some hfind
    simpa using hb
  exact ⟨p, List.mem_reverse.mp (List.mem_of_find?_eq_some hfind), hpk, hv⟩

/-- C4: after injecting the parameters of a matched (template, path) pair
into a request with no prior route parameters, a key is bound exactly when
it is the name of a placeholder segment of the template, and every bound
value is the actual path segment at a position whose template segment is a
placeholder with that name. -/
theorem extract_params_exact_bindings
    (r : Route) (path : String) (req : HTTPRequest) (n v : String)
    (hempty : req.route_params = [])
    (hmatch : Route.matches_route_pattern r path = true) :
    ((lookupAL n
        (inject_route_params_from_path req r.path path).route_params).isSome
          = true
        ↔ ∃ seg ∈ splitChar '/' r.path.data,
            placeholderName seg = some n.data)
    ∧ (lookupAL n
          (inject_route_params_from_path req r.path path).route_params
            = some v →
        ∃ i, ∃ h1 : i < (splitChar '/' r.path.data).length,
          ∃ h2 : i < (splitChar '/' path.data).length,
            placeholderName ((splitChar '/' r.path.data).get ⟨i, h1⟩)
              = some n.data
            ∧ (splitChar '/' path.data).get ⟨i, h2⟩ = v.data) := by
  have hlen : (splitChar '/' r.path.data).length
      = (splitChar '/' path.data).length := by
    have hm := hmatch
    simp only [Route.matches_route_pattern, Bool.and_eq_true,
      beq_iff_eq] at hm
    exact hm.1
  have hlook : lookupAL n
      (inject_route_params_from_path req r.path path).route_params
      = lastVal n (paramBindings r.path path) := by
    rw [inject_params_eq, hempty, lookupAL_insertPairs_nil]
  constructor
  · rw [hlook, lastVal_isSome_iff]
    constructor
    · rintro ⟨p, hp, hpk⟩
      rw [paramBindings, List.mem_filterMap] at hp
      obtain ⟨q, hq, hmap⟩ := hp
      rw [Option.map_eq_some'] at hmap
      obtain ⟨name, hname, hpeq⟩ := hmap
      obtain ⟨qa, qb⟩ := q
      refine ⟨qa, (List.of_mem_zip hq).1, ?_⟩
      rw [hname]
      have hnm : (⟨name⟩ : String) = n := by rw [← hpk, ← hpeq]
      rw [show name = n.data from congrArg String.data hnm]
    · rintro ⟨seg, hseg, hph⟩
      rw [List.mem_iff_getElem] at hseg
      obtain ⟨i, hi, hgi⟩ := hseg
      have hi2 : i < (splitChar '/' path.data).length := hlen ▸ hi
      have hiz : i < ((splitChar '/' r.path.data).zip
          (splitChar '/' path.data)).length := by
        rw [List.length_zip]
        exact Nat.lt_min.mpr ⟨hi, hi2⟩
      refine ⟨(n, ⟨(splitChar '/' path.data)[i]⟩), ?_, rfl⟩
      rw [paramBindings, List.mem_filterMap]
      refine ⟨((splitChar '/' r.path.data)[i],
        (splitChar '/' path.data)[i]), ?_, ?_⟩
      · have hzip : ((splitChar '/' r.path.data).zip
            (splitChar '/' path.data))[i]
              = ((splitChar '/' r.path.data)[i],
                 (splitChar '/' path.data)[i]) := List.getElem_zip
        rw [← hzip]
        exact List.getElem_mem hiz
      · rw [hgi, hph]
        rfl
  · rw [hlook]
    intro hv
    obtain ⟨p, hp, hpk, hpv⟩ := lastVal_eq_some_mem n v _ hv
    rw [paramBindings, List.mem_filterMap] at hp
    obtain ⟨q, hq, hmap⟩ := hp
    rw [Option.map_eq_some'] at hmap
    obtain ⟨name, hname, hpeq⟩ := hmap
    rw [List.mem_iff_getElem] at hq
    obtain ⟨j, hj, hgj⟩ := hq
    have hj1 : j < (splitChar '/' r.path.data).length :=
      List.lt_length_left_of_zip hj
    have hj2 : j < (splitChar '/' path.data).length := by
      rw [← hlen]
      exact hj1
    have hzip : ((splitChar '/' r.path.data).zip
        (splitChar '/' path.data))[j]
          = ((splitChar '/' r.path.data)[j],
             (splitChar '/' path.data)[j]) := List.getElem_zip
    have hq1 : q.1 = (splitChar '/' r.path.data)[j] := by
      rw [← hgj, hzip]
    have hq2 : q.2 = (splitChar '/' path.data)[j] := by
      rw [← hgj, hzip]
    have hnm : (⟨name⟩ : String) = n := by rw [← hpk, ← hpeq]
    have hvm : (⟨q.2⟩ : String) = v := by rw [← hpv, ← hpeq]
    refine ⟨j, hj1, hj2, ?_, ?_⟩
    · rw [List.get_eq_getElem, ← hq1, hname,
        show name = n.data from congrArg String.data hnm]
    · rw [List.get_eq_getElem, ← hq2,
        show q.2 = v.data from congrArg String.data hvm]

/-- C4 at a concrete input: `/users/\x7bid\x7d` against `/users/42` binds
exactly the key `id`, to `42`. -/
theorem extract_params_exact_bindings_witness :
    ((lookupAL "id"
        (inject_route_params_from_path sampleRequest usersRoute.path
          "/users/42").route_params).isSome = true
        ↔ ∃ seg ∈ splitChar '/' usersRoute.path.data,
            placeholderName seg = some ("id" : String).data)
    ∧ (lookupAL "id"
          (inject_route_params_from_path sampleRequest usersRoute.path
            "/users/42").route_params = some "42" →
        ∃ i, ∃ h1 : i < (splitChar '/' usersRoute.path.data).length,
          ∃ h2 : i < (splitChar '/' ("/users/42" : String).data).length,
            placeholderName ((splitChar '/' usersRoute.path.data).get ⟨i, h1⟩)
              = some ("id" : String).data
            ∧ (splitChar '/' ("/users/42" : String).data).get ⟨i, h2⟩
              = ("42" : String).data) :=
  extract_params_exact_bindings usersRoute "/users/42" sampleRequest
    "id" "42" rfl rfl

end HttpScratch
